import Mathlib

/-!
Shallow embedding of the backerrs scanning pipeline (src/scanning.rs) and the
gallery selection widget (src/widgets/gallery.rs), with theorems settling the
spec claims about them.

Conventions of the embedding:
* Paths are lists of components (`List String`); rendering with slashes is
  `String.intercalate "/"`.
* File bytes are `List Nat` (each element one byte).
* Fallible Rust operations (`Result`) become `Except`; `Option` stays `Option`.
* Side effects of `process_tree` (reads, hash computations, decodes, upserts,
  printed skips) are reified as an explicit event log, so that claims about
  "no decoding happened" are statable.
* External crates (exif, image, globwalk) are modelled as components of an
  `Env` record: the scanning code only observes them through the calls it
  makes, so each becomes an abstract function supplied to the embedding.
-/

namespace Backerrs

/-- Equality of `Except` values is decidable when it is on both sides. -/
instance {ε α : Type} [DecidableEq ε] [DecidableEq α] :
    DecidableEq (Except ε α) := fun a b =>
  match a, b with
  | Except.ok x, Except.ok y =>
      if h : x = y then isTrue (by rw [h])
      else isFalse (fun he => by cases he; exact h rfl)
  | Except.error x, Except.error y =>
      if h : x = y then isTrue (by rw [h])
      else isFalse (fun he => by cases he; exact h rfl)
  | Except.ok _, Except.error _ => isFalse (fun he => by cases he)
  | Except.error _, Except.ok _ => isFalse (fun he => by cases he)

/-- Calendar date-time (chrono `NaiveDateTime`), abstracted to an ordinal;
the scanning code only constructs, compares and stores these values. -/
structure NaiveDateTime where
  seconds : Int
deriving DecidableEq, Repr

/-- The two EXIF tags consulted by `try_deduce_date` (scanning.rs:234). -/
inductive Tag where
  | DateTime
  | DateTimeOriginal
deriving DecidableEq, Repr

/-- Modelled from the spec: a raw embedded date-time field; `to_naive_opt`
(helper from the repository's imaging module, not under src/) is its parse
into a calendar date-time — `none` when the field is present but unparseable. -/
structure ExifDateTime where
  to_naive_opt : Option NaiveDateTime

/-- Modelled from the spec: a decoded EXIF block. `datetime t` models
`exif.datetime(tag)` (helper from the repository's imaging module, not under
src/): `none` when the field is absent. -/
structure Exif where
  datetime : Tag → Option ExifDateTime

/-- Modelled from the spec: one date-path configuration entry
(`config::DatePath`, not under src/): a path-matching pattern with named
capture groups plus a date-template expansion string. `capturesExpand rel`
fuses `path.captures(rel)` with `captures.expand(date)`: `none` when the
pattern does not match, otherwise the expanded date string. -/
structure DatePath where
  capturesExpand : String → Option String

/-- Embedding of `try_deduce_date` (scanning.rs:226-255). The source prints
each expanded date template (`iprintln!("\nDATE: ...")`) and falls through;
the printed expansions are reified as the first component of the result so
the fall-through is observable. The returned date is the second component. -/
def try_deduce_date (exif : Option Exif) (relative_path : String)
    (date_paths : List DatePath) : List String × Option NaiveDateTime :=
  let fromExif : Option NaiveDateTime :=
    match exif with
    | some e =>
        ((([Tag.DateTime, Tag.DateTimeOriginal].filterMap e.datetime).filterMap
          (fun dt => dt.to_naive_opt)).head?)
    | none => none
  match fromExif with
  | some d => ([], some d)
  | none =>
      -- The date-path loop only computes and prints the expansions
      -- (scanning.rs:246-252); nothing is parsed or returned from them.
      (date_paths.filterMap (fun dp => dp.capturesExpand relative_path), none)

/-- The first present-and-parseable embedded field, in the source's order
(`Tag::DateTime` before `Tag::DateTimeOriginal`). Helper for stating claims. -/
def exifNaive (e : Exif) (t : Tag) : Option NaiveDateTime :=
  (e.datetime t).bind (fun dt => dt.to_naive_opt)

/-! ### Selection (src/widgets/gallery.rs:28-52) -/

/-- Embedding of `Selection` (gallery.rs:28-35); `u32` indices become `Nat`
(no arithmetic is performed on them in `single`/`range`). -/
structure Selection where
  initial : Nat
  last : Nat
deriving DecidableEq, Repr

/-- Rust `RangeInclusive<u32>`; `stop` stands for Rust's `end` field
(a keyword in Lean). -/
structure RangeInclusiveU32 where
  start : Nat
  stop : Nat
deriving DecidableEq, Repr

/-- `start..=stop` contains `n` iff `start ≤ n ≤ stop`. -/
def RangeInclusiveU32.containsIdx (r : RangeInclusiveU32) (n : Nat) : Prop :=
  r.start ≤ n ∧ n ≤ r.stop

instance (r : RangeInclusiveU32) (n : Nat) : Decidable (r.containsIdx n) :=
  inferInstanceAs (Decidable (_ ∧ _))

/-- Embedding of `Selection::single` (gallery.rs:38-43). -/
def Selection.single (idx : Nat) : Selection :=
  { initial := idx, last := idx }

/-- Embedding of `Selection::range` (gallery.rs:45-51). -/
def Selection.range (s : Selection) : RangeInclusiveU32 :=
  if s.initial ≤ s.last then
    { start := s.initial, stop := s.last }
  else
    { start := s.last, stop := s.initial }

/-! ### relative_slash_path (scanning.rs:216-223) -/

/-- Error cases of `relative_slash_path`: `Path::strip_prefix` failing
(path not under root), or `to_slash` failing (path not convertible). -/
inductive PathError where
  | notUnderRoot
  | notSlashConvertible
deriving DecidableEq, Repr

/-- `PathExt::to_slash`: render components slash-separated. On the component
model every component is a valid UTF-8 string, so this always succeeds (the
source's `None` case arises only for non-UTF-8 paths). -/
def toSlash (p : List String) : Option String :=
  some (String.intercalate "/" p)

/-- Embedding of `relative_slash_path` (scanning.rs:217-223):
`path.strip_prefix(root)` followed by slash rendering, each failure
propagated as an error (`?` / `with_context`), never a panic. -/
def relative_slash_path (root path : List String) : Except PathError String :=
  if root.isPrefixOf path then
    match toSlash (path.drop root.length) with
    | some s => Except.ok s
    | none => Except.error PathError.notSlashConvertible
  else
    Except.error PathError.notUnderRoot

/-! ### SHA-1 and its lowercase-hex rendering
(scanning.rs:90 `format!("{:x}", Sha1::digest(&buf))`; the digest itself is
the sha1 crate's implementation of FIPS 180, embedded here directly). -/

/-- Truncation to a 32-bit word. -/
def w32 (n : Nat) : Nat := n % 2 ^ 32

/-- 32-bit left rotation by `s`. -/
def rotl (s n : Nat) : Nat :=
  w32 (n % 2 ^ 32 * 2 ^ s + n % 2 ^ 32 / 2 ^ (32 - s))

/-- Big-endian rendering of a 32-bit word as 4 bytes. -/
def beBytes4 (n : Nat) : List Nat :=
  [n / 2 ^ 24 % 256, n / 2 ^ 16 % 256, n / 2 ^ 8 % 256, n % 256]

/-- Big-endian rendering of a 64-bit value as 8 bytes. -/
def beBytes8 (n : Nat) : List Nat :=
  [n / 2 ^ 56 % 256, n / 2 ^ 48 % 256, n / 2 ^ 40 % 256, n / 2 ^ 32 % 256,
   n / 2 ^ 24 % 256, n / 2 ^ 16 % 256, n / 2 ^ 8 % 256, n % 256]

/-- SHA-1 padding: append `0x80`, zero bytes to 56 mod 64, then the bit
length as 8 big-endian bytes. -/
def sha1Pad (m : List Nat) : List Nat :=
  m ++ [0x80] ++ List.replicate ((119 - m.length % 64) % 64) 0
    ++ beBytes8 (8 * m.length)

/-- Split a byte list into 64-byte chunks. -/
def chunks64 : List Nat → List (List Nat)
  | [] => []
  | a :: rest => ((a :: rest).take 64) :: chunks64 ((a :: rest).drop 64)
termination_by l => l.length
decreasing_by
  simp only [List.length_drop, List.length_cons]
  omega

/-- The 80-entry message schedule of one chunk: 16 big-endian words, then
`w[i] = rotl 1 (w[i-3] xor w[i-8] xor w[i-14] xor w[i-16])`. -/
def sha1Words (chunk : List Nat) : Array Nat :=
  let w0 : Array Nat := ((List.range 16).map (fun i =>
    chunk.getD (4 * i) 0 * 2 ^ 24 + chunk.getD (4 * i + 1) 0 * 2 ^ 16 +
    chunk.getD (4 * i + 2) 0 * 2 ^ 8 + chunk.getD (4 * i + 3) 0)).toArray
  (List.range 64).foldl (fun w j =>
    let i := j + 16
    w.push (rotl 1 ((((w.getD (i - 3) 0) ^^^ (w.getD (i - 8) 0)) ^^^
      (w.getD (i - 14) 0)) ^^^ (w.getD (i - 16) 0)))) w0

/-- One SHA-1 round. -/
def sha1Round (w : Array Nat) (st : Nat × Nat × Nat × Nat × Nat) (i : Nat) :
    Nat × Nat × Nat × Nat × Nat :=
  let (a, b, c, d, e) := st
  let f :=
    if i < 20 then (b &&& c) ||| ((b ^^^ 0xFFFFFFFF) &&& d)
    else if i < 40 then (b ^^^ c) ^^^ d
    else if i < 60 then ((b &&& c) ||| (b &&& d)) ||| (c &&& d)
    else (b ^^^ c) ^^^ d
  let k :=
    if i < 20 then 0x5A827999
    else if i < 40 then 0x6ED9EBA1
    else if i < 60 then 0x8F1BBCDC
    else 0xCA62C1D6
  (w32 (rotl 5 a + f + e + k + w.getD i 0), a, rotl 30 b, c, d)

/-- Process one 64-byte chunk. -/
def sha1Chunk (h : Nat × Nat × Nat × Nat × Nat) (chunk : List Nat) :
    Nat × Nat × Nat × Nat × Nat :=
  let w := sha1Words chunk
  let (a, b, c, d, e) := (List.range 80).foldl (sha1Round w) h
  let (h0, h1, h2, h3, h4) := h
  (w32 (h0 + a), w32 (h1 + b), w32 (h2 + c), w32 (h3 + d), w32 (h4 + e))

/-- SHA-1 digest of a byte sequence, as 20 bytes. -/
def sha1Digest (m : List Nat) : List Nat :=
  let (h0, h1, h2, h3, h4) :=
    (chunks64 (sha1Pad m)).foldl sha1Chunk
      (0x67452301, 0xEFCDAB89, 0x98BADCFE, 0x10325476, 0xC3D2E1F0)
  beBytes4 h0 ++ beBytes4 h1 ++ beBytes4 h2 ++ beBytes4 h3 ++ beBytes4 h4

/-- The sixteen lowercase hex digit characters. -/
def hexDigitChars : List Char := "0123456789abcdef".toList

/-- One lowercase hex digit. -/
def hexChar (n : Nat) : Char := hexDigitChars.getD (n % 16) '0'

/-- One byte as two lowercase hex digits (Rust `{:x}` on a digest renders
each byte zero-padded to width 2). -/
def byteHex (b : Nat) : List Char := [hexChar (b / 16), hexChar b]

/-- The content fingerprint of scanning.rs:90:
`format!("{:x}", Sha1::digest(&buf))`. -/
def sha1Hex (m : List Nat) : String :=
  String.mk ((sha1Digest m).flatMap byteHex)

/-! ### Marker resolution (scanning.rs:140-214) -/

/-- A tree: logical marker identifier plus root path (scanning.rs:140-145). -/
structure Tree where
  marker : String
  root : List String
deriving DecidableEq, Repr

/-- What the filesystem holds at a candidate marker path. `unreadable` is an
open failure whose io kind is not `NotFound` (e.g. permission denied);
`unparseable` opens but is not valid JSON with an `id` field. -/
inductive MarkerFile where
  | absent
  | unreadable
  | unparseable
  | content (id : String)
deriving DecidableEq, Repr

/-- io::ErrorKind, restricted to the kinds the code distinguishes. -/
inductive IoKind where
  | notFound
  | permissionDenied
  | otherKind
deriving DecidableEq, Repr

/-- The `anyhow::Error` produced by `marker_read`, retaining exactly what
`try_from` can observe of it: whether `downcast_ref::<io::Error>()` succeeds
and with which kind. `noParent` is the `anyhow!("Could not split parent…")`
error; `json` a serde_json parse error. -/
inductive AnyError where
  | io (kind : IoKind)
  | noParent
  | json
deriving DecidableEq, Repr

/-- Embedding of `marker_read` (scanning.rs:193-214) over a marker
filesystem `mfs`. `File::open` on an absent file yields an io error of kind
`NotFound`; on an unreadable file a different io kind; serde failures are
not io errors. -/
def marker_read (mfs : List String → MarkerFile) (file_path : List String) :
    Except AnyError Tree :=
  if file_path = [] then Except.error AnyError.noParent
  else
    match mfs file_path with
    | MarkerFile.absent => Except.error (AnyError.io IoKind.notFound)
    | MarkerFile.unreadable => Except.error (AnyError.io IoKind.permissionDenied)
    | MarkerFile.unparseable => Except.error AnyError.json
    | MarkerFile.content id =>
        Except.ok { root := file_path.dropLast, marker := id }

/-- `TreeError` (scanning.rs:147-156). -/
inductive TreeError where
  | notFound (path : List String)
  | otherErr (path : List String) (source : AnyError)
deriving DecidableEq, Repr

/-- Embedding of `TryFrom<&Path> for Tree` (scanning.rs:173-190):
`NotFound` exactly when the wrapped error downcasts to an io error of kind
`NotFound`, every other failure becomes `Other`. -/
def tree_try_from (mfs : List String → MarkerFile) (marker_path : List String) :
    Except TreeError Tree :=
  match marker_read mfs marker_path with
  | Except.error (AnyError.io IoKind.notFound) =>
      Except.error (TreeError.notFound marker_path)
  | Except.error e => Except.error (TreeError.otherErr marker_path e)
  | Except.ok tree => Except.ok tree

/-! ### Per-file processing (scanning.rs:45-137) -/

/-- globwalk::WalkError, abstract (the code only reports and skips it). -/
structure WalkError where
  msg : String
deriving DecidableEq, Repr

/-- A decoded image (the `image` crate's DynamicImage), abstract: the code
only resizes and re-encodes it. -/
structure Image where
  id : Nat
deriving DecidableEq, Repr

/-- Image decode failure, abstract. -/
structure DecodeError where
  msg : String
deriving DecidableEq, Repr

/-- The external world as `process_tree` observes it: the marker files, the
walker's enumeration for a root (`Tree::iter`, scanning.rs:159-170), byte
reading (`fs::read`), EXIF parsing (`ExifReader… .ok()`), image decoding
(`ImageReader…decode()`), thumbnail resizing (`resize(200,200,CatmullRom)`)
and JPEG re-encoding (`write_to(…, Jpeg(90))`). -/
structure Env where
  markerFs : List String → MarkerFile
  walk : List String → List (Except WalkError (List String))
  fsRead : List String → Except IoKind (List Nat)
  exifParse : List Nat → Option Exif
  decode : List Nat → Except DecodeError Image
  resizeThumb : Image → Image
  encodeJpeg : Image → Except Unit (List Nat)

/-- Modelled from the spec: `model::FileInfo` (not under src/) — the catalog
record: content fingerprint, optional capture date, thumbnail bytes. -/
structure FileInfo where
  hash : String
  date : Option NaiveDateTime
  thumb : List Nat
deriving DecidableEq, Repr

/-- Modelled from the spec: the Catalog Store (db module, not under src/).
`records` maps each `(marker, relative_path)` pair to its record; `broken`
models the store having become unusable (connection/write failure), in which
case both operations fail. -/
structure Db where
  records : List ((String × String) × FileInfo)
  broken : Bool
deriving DecidableEq, Repr

/-- Whether the catalog has a record for the exact `(marker, rel)` pair. -/
def dbHasKey (db : Db) (marker rel : String) : Bool :=
  db.records.any (fun r => r.1 = (marker, rel))

/-- Modelled from the spec: `db::exists` — true iff a record already exists
for that exact pair; fails when the store is unusable. -/
def db_exists (db : Db) (marker rel : String) : Except Unit Bool :=
  if db.broken then Except.error ()
  else Except.ok (dbHasKey db marker rel)

/-- Modelled from the spec: `db::upsert` — inserts, or replaces, the record
for the pair; fails when the store is unusable. -/
def db_upsert (db : Db) (marker rel : String) (info : FileInfo) :
    Except Unit Db :=
  if db.broken then Except.error ()
  else Except.ok
    { db with records :=
        db.records.filter (fun r => r.1 ≠ (marker, rel))
          ++ [((marker, rel), info)] }

/-- Observable side effects of one scan, in order. `accessFailed` is the
reported-and-skipped walker item; `skippedExisting` the printed "."; the
remaining constructors mark the expensive work stages of one file. -/
inductive Event where
  | treeSkippedNotFound
  | accessFailed
  | readBytes (path : List String)
  | skippedExisting (rel : String)
  | hashed (rel : String)
  | decodeFailed (rel : String)
  | decoded (rel : String)
  | thumbnailed (rel : String)
  | upserted (marker rel : String)
deriving DecidableEq, Repr

/-- Errors that `process_tree` propagates with `?` (aborting the tree). -/
inductive RunError where
  | io (k : IoKind)
  | pathErr (e : PathError)
  | store
  | encodeErr
  | treeOther (path : List String) (source : AnyError)
deriving DecidableEq, Repr

/-- The body of `process_tree`'s file loop (scanning.rs:65-135), one walker
item at a time, threading the catalog and reifying side effects as events.
Matches the source's control flow exactly: walker-item errors are reported
and skipped (`continue`); a failing `fs::read` propagates with `?`; bytes
are read before the `db::exists` check; existing pairs are skipped; the
SHA-1 fingerprint is computed before the decode attempt; decode failures are
reported and skipped; `db::exists`/`db::upsert`/thumbnail-encode failures
propagate with `?`. -/
def processItems (env : Env) (marker : String) (root : List String)
    (date_paths : List DatePath) :
    List (Except WalkError (List String)) → Db →
      Db × List Event × Except RunError Unit
  | [], db => (db, [], Except.ok ())
  | item :: rest, db =>
    match item with
    | Except.error _ =>
        let (db', evs, r) := processItems env marker root date_paths rest db
        (db', Event.accessFailed :: evs, r)
    | Except.ok path =>
      match env.fsRead path with
      | Except.error k => (db, [], Except.error (RunError.io k))
      | Except.ok buf =>
        match relative_slash_path root path with
        | Except.error e =>
            (db, [Event.readBytes path], Except.error (RunError.pathErr e))
        | Except.ok rel =>
          match db_exists db marker rel with
          | Except.error _ =>
              (db, [Event.readBytes path], Except.error RunError.store)
          | Except.ok true =>
              let (db', evs, r) := processItems env marker root date_paths rest db
              (db', Event.readBytes path :: Event.skippedExisting rel :: evs, r)
          | Except.ok false =>
            let hash := sha1Hex buf
            let exif := env.exifParse buf
            let date := (try_deduce_date exif rel date_paths).2
            match env.decode buf with
            | Except.error _ =>
                let (db', evs, r) := processItems env marker root date_paths rest db
                (db', Event.readBytes path :: Event.hashed rel ::
                  Event.decodeFailed rel :: evs, r)
            | Except.ok img =>
              match env.encodeJpeg (env.resizeThumb img) with
              | Except.error _ =>
                  (db, [Event.readBytes path, Event.hashed rel,
                    Event.decoded rel], Except.error RunError.encodeErr)
              | Except.ok thumbJpeg =>
                match db_upsert db marker rel
                    { hash := hash, date := date, thumb := thumbJpeg } with
                | Except.error _ =>
                    (db, [Event.readBytes path, Event.hashed rel,
                      Event.decoded rel, Event.thumbnailed rel],
                      Except.error RunError.store)
                | Except.ok db1 =>
                    let (db', evs, r) :=
                      processItems env marker root date_paths rest db1
                    (db', Event.readBytes path :: Event.hashed rel ::
                      Event.decoded rel :: Event.thumbnailed rel ::
                      Event.upserted marker rel :: evs, r)

/-- Embedding of `process_tree` (scanning.rs:45-138): resolve the marker —
on `NotFound` log and return success (scanning.rs:52-55), on `Other`
propagate the error (`m?`) — select this marker's date-path configuration
(`remove` from the per-marker map, flattened to empty when absent), then run
the file loop over the walker's enumeration. -/
def process_tree (env : Env) (marker_path : List String)
    (date_paths_per_marker : List (String × List DatePath)) (db : Db) :
    Db × List Event × Except RunError Unit :=
  match tree_try_from env.markerFs marker_path with
  | Except.error (TreeError.notFound _) =>
      (db, [Event.treeSkippedNotFound], Except.ok ())
  | Except.error (TreeError.otherErr p e) =>
      (db, [], Except.error (RunError.treeOther p e))
  | Except.ok tree =>
      let date_paths := ((date_paths_per_marker.lookup tree.marker).getD [])
      processItems env tree.marker tree.root date_paths
        (env.walk tree.root) db

/-- Embedding of `scan` (scanning.rs:25-43): run `process_tree` for every
configured marker path against the shared store (here threaded, matching the
mutex-serialized accesses), collect every tree's error, report each
(`ieprintln!("Error: " err)`), and return `Ok(())` (scanning.rs:42)
unconditionally. The reported errors are returned alongside for the theorems
to inspect. -/
def scan (env : Env) (markers : List (List String))
    (date_paths_per_marker : List (String × List DatePath)) (db : Db) :
    Db × List RunError × Except RunError Unit :=
  let folded := markers.foldl
    (fun (acc : Db × List RunError) mp =>
      let (db1, _evs, r) := process_tree env mp date_paths_per_marker acc.1
      match r with
      | Except.ok _ => (db1, acc.2)
      | Except.error e => (db1, acc.2 ++ [e]))
    (db, [])
  (folded.1, folded.2, Except.ok ())

/-! ### Concrete fixtures used by witnesses and counterexamples -/

/-- Expensive-work events of the file pipeline: fingerprint hashing, decode
attempts, thumbnailing, upserts. (Reading bytes is deliberately not listed:
the source reads every file before the existence check.) -/
def isWork : Event → Bool
  | Event.hashed _ => true
  | Event.decodeFailed _ => true
  | Event.decoded _ => true
  | Event.thumbnailed _ => true
  | Event.upserted _ _ => true
  | _ => false

/-- An EXIF block where both date fields are present and parseable but
disagree: generic `DateTime` is 1, `DateTimeOriginal` is 2. -/
def exifBothFields : Exif where
  datetime := fun t =>
    match t with
    | Tag.DateTime => some { to_naive_opt := some { seconds := 1 } }
    | Tag.DateTimeOriginal => some { to_naive_opt := some { seconds := 2 } }

/-- An EXIF block where only `DateTimeOriginal` is present (and parseable). -/
def exifOriginalOnly : Exif where
  datetime := fun t =>
    match t with
    | Tag.DateTime => none
    | Tag.DateTimeOriginal => some { to_naive_opt := some { seconds := 5 } }

/-- A date-path entry matching `2011/07/x.jpg` and expanding to a date
string that parses as a calendar date-time. -/
def datePath201107 : DatePath where
  capturesExpand := fun s =>
    if s = "2011/07/x.jpg" then some "2011-07-01 00:00:00" else none

/-- An environment with one tree `m` at root `r` containing one readable
image `a.jpg`. -/
def envKnown : Env where
  markerFs := fun p =>
    if p = ["r", "marker.json"] then MarkerFile.content "m" else MarkerFile.absent
  walk := fun root => if root = ["r"] then [Except.ok ["r", "a.jpg"]] else []
  fsRead := fun p =>
    if p = ["r", "a.jpg"] then Except.ok [1, 2, 3]
    else Except.error IoKind.notFound
  exifParse := fun _ => none
  decode := fun _ => Except.ok { id := 0 }
  resizeThumb := id
  encodeJpeg := fun _ => Except.ok []

/-- A catalog that already has the only file of `envKnown`'s tree. -/
def dbKnown : Db where
  records := [(("m", "a.jpg"), { hash := "h", date := none, thumb := [] })]
  broken := false

/-- An environment where reading `bad.jpg` fails with a permission error and
every other path reads fine. -/
def envAccess : Env where
  markerFs := fun _ => MarkerFile.absent
  walk := fun _ => []
  fsRead := fun p =>
    if p = ["r", "bad.jpg"] then Except.error IoKind.permissionDenied
    else Except.ok [7]
  exifParse := fun _ => none
  decode := fun _ => Except.ok { id := 0 }
  resizeThumb := id
  encodeJpeg := fun _ => Except.ok []

/-- An environment with one tree `m` at root `r` holding `a.jpg` and `b.jpg`
where reading `a.jpg` fails with a permission error. -/
def envReadFail : Env where
  markerFs := fun p =>
    if p = ["r", "marker.json"] then MarkerFile.content "m" else MarkerFile.absent
  walk := fun root =>
    if root = ["r"] then [Except.ok ["r", "a.jpg"], Except.ok ["r", "b.jpg"]]
    else []
  fsRead := fun p =>
    if p = ["r", "a.jpg"] then Except.error IoKind.permissionDenied
    else Except.ok [7]
  exifParse := fun _ => none
  decode := fun _ => Except.ok { id := 0 }
  resizeThumb := id
  encodeJpeg := fun _ => Except.ok []

/-- An environment with one tree `m` at root `r` holding three readable
files `a.jpg`, `b.jpg`, `c.jpg`, of which exactly `b.jpg` (bytes `[9]`)
fails image decoding. -/
def envCorrupt : Env where
  markerFs := fun p =>
    if p = ["r", "marker.json"] then MarkerFile.content "m" else MarkerFile.absent
  walk := fun root =>
    if root = ["r"] then
      [Except.ok ["r", "a.jpg"], Except.ok ["r", "b.jpg"],
       Except.ok ["r", "c.jpg"]]
    else []
  fsRead := fun p =>
    if p = ["r", "a.jpg"] then Except.ok [1]
    else if p = ["r", "b.jpg"] then Except.ok [9]
    else if p = ["r", "c.jpg"] then Except.ok [3]
    else Except.error IoKind.notFound
  exifParse := fun _ => none
  decode := fun buf =>
    if buf = [9] then Except.error { msg := "corrupt" } else Except.ok { id := 0 }
  resizeThumb := id
  encodeJpeg := fun _ => Except.ok []

/-- The scan of `envCorrupt`'s tree starting from an empty catalog. -/
def corruptRun : Db × List Event × Except RunError Unit :=
  process_tree envCorrupt ["r", "marker.json"] [] { records := [], broken := false }

/-- An environment whose marker files are all absent. -/
def envAbsent : Env where
  markerFs := fun _ => MarkerFile.absent
  walk := fun _ => []
  fsRead := fun _ => Except.error IoKind.notFound
  exifParse := fun _ => none
  decode := fun _ => Except.ok { id := 0 }
  resizeThumb := id
  encodeJpeg := fun _ => Except.ok []

/-- An environment with one tree `m` at root `r` holding one readable image,
used against a broken store. -/
def envStore : Env where
  markerFs := fun p =>
    if p = ["r", "marker.json"] then MarkerFile.content "m" else MarkerFile.absent
  walk := fun root => if root = ["r"] then [Except.ok ["r", "a.jpg"]] else []
  fsRead := fun p =>
    if p = ["r", "a.jpg"] then Except.ok [1] else Except.error IoKind.notFound
  exifParse := fun _ => none
  decode := fun _ => Except.ok { id := 0 }
  resizeThumb := id
  encodeJpeg := fun _ => Except.ok []

/-- A store that has become unusable: every operation on it fails. -/
def dbBroken : Db where
  records := []
  broken := true

/-! ## Theorems -/

/-- Helper: `all` distributes over `flatMap` when every produced chunk
satisfies the predicate. -/
theorem all_flatMap_of_all {α β : Type} (p : β → Bool) (f : α → List β)
    (l : List α) (h : ∀ a, (f a).all p = true) : (l.flatMap f).all p = true := by
  induction l with
  | nil => rfl
  | cons x xs ih => simp [List.flatMap_cons, List.all_append, h x, ih]

/-- Helper: every character produced by `hexChar` is a lowercase hex digit. -/
theorem hexChar_lower (n : Nat) :
    (decide (hexChar n ∈ hexDigitChars) && !(hexChar n).isUpper) = true := by
  have h : n % 16 < 16 := Nat.mod_lt _ (by norm_num)
  unfold hexChar
  set k := n % 16 with hk
  interval_cases k <;> decide

/-- C9: `Selection::range` is the inclusive range from `min(initial, last)`
to `max(initial, last)`: it is non-empty, contains both endpoints, is
unchanged when `initial` and `last` are swapped, and
`Selection::single(i).range()` is exactly `i..=i`. -/
theorem selection_range_minmax (s : Selection) (i : Nat) :
    (s.range.start = min s.initial s.last ∧ s.range.stop = max s.initial s.last)
    ∧ s.range.start ≤ s.range.stop
    ∧ (s.range.containsIdx s.initial ∧ s.range.containsIdx s.last)
    ∧ (Selection.mk s.last s.initial).range = s.range
    ∧ (Selection.single i).range = { start := i, stop := i } := by
  rcases s with ⟨a, b⟩
  simp only [Selection.range, Selection.single, RangeInclusiveU32.containsIdx,
    RangeInclusiveU32.mk.injEq]
  split_ifs <;> simp_all <;> omega

/-- C10: joining a relative suffix onto a root and splitting it back yields
the slash rendering of the suffix, and a path that does not extend the root
yields an error value (never a panic). -/
theorem relative_slash_path_roundtrip (root r path : List String)
    (h : ¬ root <+: path) :
    relative_slash_path root (root ++ r) = Except.ok (String.intercalate "/" r)
    ∧ relative_slash_path root path = Except.error PathError.notUnderRoot := by
  constructor
  · have h1 : root.isPrefixOf (root ++ r) = true :=
      List.isPrefixOf_iff_prefix.mpr (List.prefix_append root r)
    simp [relative_slash_path, h1, toSlash, List.drop_left]
  · have h2 : root.isPrefixOf path = false := by
      rw [← Bool.not_eq_true, List.isPrefixOf_iff_prefix]
      exact h
    simp [relative_slash_path, h2]

/-- Witness for C10 at a concrete root and suffix. -/
theorem relative_slash_path_roundtrip_witness :
    relative_slash_path ["r"] (["r"] ++ ["a", "b.jpg"]) = Except.ok "a/b.jpg"
    ∧ relative_slash_path ["r"] ["x", "b.jpg"]
        = Except.error PathError.notUnderRoot := by
  have h := relative_slash_path_roundtrip ["r"] ["a", "b.jpg"] ["x", "b.jpg"]
    (by decide)
  simpa using h

/-- C8: the content fingerprint is a deterministic function of the raw
bytes, and every character of the rendered string is a lowercase hex digit
(in particular, never an uppercase hex digit). -/
theorem sha1Hex_deterministic_lowercase (m : List Nat) :
    sha1Hex m = sha1Hex m
    ∧ ((sha1Hex m).toList.all
        (fun c => decide (c ∈ hexDigitChars) && !c.isUpper)) = true := by
  refine ⟨rfl, ?_⟩
  show ((sha1Digest m).flatMap byteHex).all _ = true
  refine all_flatMap_of_all _ _ _ (fun b => ?_)
  simp [byteHex, hexChar_lower]

/-- C1 (amended): `try_deduce_date` returns the first present-and-parseable
embedded field trying the generic `DateTime` field first and
`DateTimeOriginal` second, independently of the configured date-path
patterns (which are quantified over). -/
theorem try_deduce_date_embedded_precedence (e : Exif) (rel : String)
    (dps : List DatePath) (d : NaiveDateTime)
    (h : exifNaive e Tag.DateTime = some d ∨
      (exifNaive e Tag.DateTime = none ∧
        exifNaive e Tag.DateTimeOriginal = some d)) :
    (try_deduce_date (some e) rel dps).2 = some d := by
  cases hdt : e.datetime Tag.DateTime with
  | none =>
    rcases h with h | ⟨h0, h⟩
    · rw [exifNaive, hdt] at h; simp at h
    · cases hdto : e.datetime Tag.DateTimeOriginal with
      | none => rw [exifNaive, hdto] at h; simp at h
      | some dto =>
        rw [exifNaive, hdto] at h
        simp only [Option.some_bind] at h
        simp [try_deduce_date, hdt, hdto, List.filterMap_cons, h]
  | some dt =>
    cases hn : dt.to_naive_opt with
    | none =>
      rcases h with h | ⟨h0, h⟩
      · rw [exifNaive, hdt] at h; simp [hn] at h
      · cases hdto : e.datetime Tag.DateTimeOriginal with
        | none => rw [exifNaive, hdto] at h; simp at h
        | some dto =>
          rw [exifNaive, hdto] at h
          simp only [Option.some_bind] at h
          simp [try_deduce_date, hdt, hdto, List.filterMap_cons, hn, h]
    | some d1 =>
      rcases h with h | ⟨h0, h⟩
      · rw [exifNaive, hdt] at h
        simp only [Option.some_bind, hn] at h
        cases h
        simp [try_deduce_date, hdt, List.filterMap_cons, hn]
      · rw [exifNaive, hdt] at h0
        simp [hn] at h0

/-- Witness for C1 (amended): a file whose EXIF has only a parseable
`DateTimeOriginal` field gets exactly that value. -/
theorem try_deduce_date_embedded_precedence_witness :
    (try_deduce_date (some exifOriginalOnly) "x.jpg" []).2
      = some { seconds := 5 } :=
  try_deduce_date_embedded_precedence exifOriginalOnly "x.jpg" []
    { seconds := 5 } (Or.inr ⟨rfl, rfl⟩)

/-- Counterexample for C1 as stated: with both fields present, parseable and
different, the original-capture value (2) is NOT returned — the generic
`DateTime` value (1) is, because scanning.rs:234 lists `Tag::DateTime`
first. -/
theorem try_deduce_date_not_original_first :
    (try_deduce_date (some exifBothFields) "a.jpg" []).2
        ≠ some { seconds := 2 }
    ∧ (try_deduce_date (some exifBothFields) "a.jpg" []).2
        = some { seconds := 1 } := by
  constructor <;> decide

/-- C2: for a file with no embedded metadata and a matching date-path
pattern whose expansion is a valid date string, `try_deduce_date` computes
(and prints) the expanded string but still returns no date: the expansion is
never parsed or returned (scanning.rs:246-254). -/
theorem try_deduce_date_path_fallback_returns_none :
    try_deduce_date none "2011/07/x.jpg" [datePath201107]
      = (["2011-07-01 00:00:00"], none) := by
  decide

/-- Helper for C3: when every successfully-read, successfully-relativized
walked file is already keyed in the catalog, the file loop leaves the
catalog unchanged and performs none of the expensive work stages. -/
theorem processItems_no_work_of_all_known (env : Env) (marker : String)
    (root : List String) (dps : List DatePath)
    (items : List (Except WalkError (List String))) (db : Db)
    (hall : ∀ p buf rel, Except.ok p ∈ items → env.fsRead p = Except.ok buf →
      relative_slash_path root p = Except.ok rel →
      dbHasKey db marker rel = true) :
    (processItems env marker root dps items db).1 = db
    ∧ ((processItems env marker root dps items db).2.1.all
        (fun e => !isWork e)) = true := by
  induction items with
  | nil => simp [processItems]
  | cons item rest ih =>
    have hall' : ∀ p buf rel, Except.ok p ∈ rest →
        env.fsRead p = Except.ok buf →
        relative_slash_path root p = Except.ok rel →
        dbHasKey db marker rel = true :=
      fun p buf rel hp => hall p buf rel (List.mem_cons_of_mem _ hp)
    obtain ⟨ihdb, ihall⟩ := ih hall'
    cases item with
    | error w =>
      rcases hrec : processItems env marker root dps rest db with ⟨db', evs, r⟩
      rw [hrec] at ihdb ihall
      simp only at ihdb ihall
      simp only [processItems, hrec]
      refine ⟨ihdb, ?_⟩
      rw [List.all_cons, ihall]
      simp [isWork]
    | ok path =>
      cases hread : env.fsRead path with
      | error k => simp [processItems, hread]
      | ok buf =>
        cases hrel : relative_slash_path root path with
        | error e => simp [processItems, hread, hrel, isWork]
        | ok rel =>
          have hk : dbHasKey db marker rel = true :=
            hall path buf rel (List.mem_cons_self _ _) hread hrel
          cases hbr : db.broken with
          | true => simp [processItems, hread, hrel, db_exists, hbr, isWork]
          | false =>
            rcases hrec : processItems env marker root dps rest db
              with ⟨db', evs, r⟩
            rw [hrec] at ihdb ihall
            simp only at ihdb ihall
            simp only [processItems, hread, hrel, db_exists, hbr, hk,
              if_false, Bool.false_eq_true, hrec]
            refine ⟨ihdb, ?_⟩
            rw [List.all_cons, List.all_cons, ihall]
            simp [isWork]

/-- C3 (amended): re-scanning a tree whose `(marker, relative_path)` pairs
are all already in the catalog leaves the catalog unchanged and performs no
hashing, decoding, thumbnailing, or upserting — although the source does
re-read each file's bytes before the existence check (see the
counterexample). -/
theorem process_tree_second_run_no_reprocessing (env : Env)
    (mp : List String) (dppm : List (String × List DatePath)) (db : Db)
    (hall : ∀ tr, tree_try_from env.markerFs mp = Except.ok tr →
      ∀ p buf rel, Except.ok p ∈ env.walk tr.root →
        env.fsRead p = Except.ok buf →
        relative_slash_path tr.root p = Except.ok rel →
        dbHasKey db tr.marker rel = true) :
    (process_tree env mp dppm db).1 = db
    ∧ ((process_tree env mp dppm db).2.1.all (fun e => !isWork e)) = true := by
  unfold process_tree
  cases htf : tree_try_from env.markerFs mp with
  | error te => cases te <;> simp [isWork]
  | ok tr =>
    simpa using processItems_no_work_of_all_known env tr.marker tr.root
      ((dppm.lookup tr.marker).getD []) (env.walk tr.root) db
      (hall tr htf)

/-- Witness for C3 (amended) at the concrete one-file tree of `envKnown`,
whose only pair is already in `dbKnown`. -/
theorem process_tree_second_run_no_reprocessing_witness :
    (process_tree envKnown ["r", "marker.json"] [] dbKnown).1 = dbKnown
    ∧ ((process_tree envKnown ["r", "marker.json"] [] dbKnown).2.1.all
        (fun e => !isWork e)) = true := by
  refine process_tree_second_run_no_reprocessing envKnown ["r", "marker.json"]
    [] dbKnown ?_
  intro tr htf p buf rel hp hread hrel
  have hcomp : tree_try_from envKnown.markerFs ["r", "marker.json"]
      = Except.ok { marker := "m", root := ["r"] } := by decide
  rw [hcomp] at htf
  injection htf with htr
  subst htr
  simp [envKnown] at hp
  subst hp
  have hcomp2 : relative_slash_path (Tree.mk "m" ["r"]).root ["r", "a.jpg"]
      = Except.ok "a.jpg" := by decide
  rw [hcomp2] at hrel
  injection hrel with hr
  subst hr
  decide

/-- Counterexample for C3 as stated: in this concrete state every pair of
the tree is already cataloged, yet the scan still reads the known file's
bytes (`fs::read` at scanning.rs:75 happens before the existence check at
scanning.rs:81), contradicting "does not re-read the bytes of those
files". -/
theorem process_tree_rereads_known_file :
    dbHasKey dbKnown "m" "a.jpg" = true
    ∧ (process_tree envKnown ["r", "marker.json"] [] dbKnown).1 = dbKnown
    ∧ Event.readBytes ["r", "a.jpg"]
        ∈ (process_tree envKnown ["r", "marker.json"] [] dbKnown).2.1 := by
  refine ⟨by decide, by decide, by decide⟩

/-- C4 (amended): a walker-level enumeration error is reported and only
that one entry is skipped — processing continues with the remaining files
exactly as if the bad entry were not there — but a failing byte read
(`fs::read` with `?`, scanning.rs:75) aborts the whole tree: `process_tree`
returns the error and the remaining files are not processed. -/
theorem walker_error_skipped_read_error_aborts (env : Env) (marker : String)
    (root : List String) (dps : List DatePath) (w : WalkError)
    (rest : List (Except WalkError (List String))) (db : Db)
    (p : List String) (k : IoKind)
    (hread : env.fsRead p = Except.error k) :
    (processItems env marker root dps (Except.error w :: rest) db =
      ((processItems env marker root dps rest db).1,
       Event.accessFailed :: (processItems env marker root dps rest db).2.1,
       (processItems env marker root dps rest db).2.2))
    ∧ processItems env marker root dps (Except.ok p :: rest) db
        = (db, [], Except.error (RunError.io k)) := by
  constructor
  · rcases hrec : processItems env marker root dps rest db with ⟨db', evs, r⟩
    simp [processItems, hrec]
  · simp [processItems, hread]

/-- Witness for C4 (amended) at concrete inputs of `envAccess`. -/
theorem walker_error_skipped_read_error_aborts_witness :
    (processItems envAccess "m" ["r"] [] [Except.error { msg := "boom" }]
        { records := [], broken := false } =
      ((processItems envAccess "m" ["r"] [] []
          { records := [], broken := false }).1,
       Event.accessFailed :: (processItems envAccess "m" ["r"] [] []
          { records := [], broken := false }).2.1,
       (processItems envAccess "m" ["r"] [] []
          { records := [], broken := false }).2.2))
    ∧ processItems envAccess "m" ["r"] [] [Except.ok ["r", "bad.jpg"]]
        { records := [], broken := false }
        = ({ records := [], broken := false }, [],
           Except.error (RunError.io IoKind.permissionDenied)) :=
  walker_error_skipped_read_error_aborts envAccess "m" ["r"] []
    { msg := "boom" } [] { records := [], broken := false }
    ["r", "bad.jpg"] IoKind.permissionDenied (by decide)

/-- Counterexample for C4 as stated: with two files where reading the first
fails, `process_tree` returns an error and the second file is never
processed — the scan does not "continue with the remaining files of the
tree rather than returning an error". -/
theorem read_error_aborts_tree :
    (process_tree envReadFail ["r", "marker.json"] []
        { records := [], broken := false }).2.2
      = Except.error (RunError.io IoKind.permissionDenied)
    ∧ dbHasKey (process_tree envReadFail ["r", "marker.json"] []
        { records := [], broken := false }).1 "m" "b.jpg" = false := by
  refine ⟨by decide, by decide⟩

/-- C5 (amended): a file whose bytes fail to decode as an image gets no
catalog entry and is skipped — the loop continues with the remaining files
on the unchanged catalog — although its content fingerprint has already been
computed before the decode attempt (the `hashed` event precedes the
`decodeFailed` event; scanning.rs:90 runs before scanning.rs:103). -/
theorem decode_failure_skips_file (env : Env) (marker : String)
    (root : List String) (dps : List DatePath) (p : List String)
    (rest : List (Except WalkError (List String))) (db : Db)
    (buf : List Nat) (rel : String) (derr : DecodeError)
    (hread : env.fsRead p = Except.ok buf)
    (hrel : relative_slash_path root p = Except.ok rel)
    (hbr : db.broken = false)
    (hnot : dbHasKey db marker rel = false)
    (hdec : env.decode buf = Except.error derr) :
    processItems env marker root dps (Except.ok p :: rest) db =
      ((processItems env marker root dps rest db).1,
       Event.readBytes p :: Event.hashed rel :: Event.decodeFailed rel ::
         (processItems env marker root dps rest db).2.1,
       (processItems env marker root dps rest db).2.2) := by
  rcases hrec : processItems env marker root dps rest db with ⟨db', evs, r⟩
  simp [processItems, hread, hrel, db_exists, hbr, hnot, hdec, hrec]

/-- Witness for C5 (amended) at the corrupt file `b.jpg` of `envCorrupt`. -/
theorem decode_failure_skips_file_witness :
    processItems envCorrupt "m" ["r"] [] [Except.ok ["r", "b.jpg"]]
        { records := [], broken := false } =
      ((processItems envCorrupt "m" ["r"] [] []
          { records := [], broken := false }).1,
       Event.readBytes ["r", "b.jpg"] :: Event.hashed "b.jpg" ::
         Event.decodeFailed "b.jpg" ::
         (processItems envCorrupt "m" ["r"] [] []
           { records := [], broken := false }).2.1,
       (processItems envCorrupt "m" ["r"] [] []
         { records := [], broken := false }).2.2) :=
  decode_failure_skips_file envCorrupt "m" ["r"] [] ["r", "b.jpg"] []
    { records := [], broken := false } [9] "b.jpg" { msg := "corrupt" }
    (by decide) (by decide) (by decide) (by decide) (by decide)

/-- Counterexample for C5 as stated: in the 3-file tree of `envCorrupt`
where exactly `b.jpg` is corrupt, the scan adds exactly 2 catalog entries
(for `a.jpg` and `c.jpg`, not `b.jpg`) and reports exactly 1 decode
failure, but it DOES compute a content fingerprint for the corrupt file
(the `hashed "b.jpg"` event), contradicting "computes no content
fingerprint for it". -/
theorem decode_failure_fingerprint_already_computed :
    corruptRun.1.records.length = 2
    ∧ dbHasKey corruptRun.1 "m" "a.jpg" = true
    ∧ dbHasKey corruptRun.1 "m" "c.jpg" = true
    ∧ dbHasKey corruptRun.1 "m" "b.jpg" = false
    ∧ (corruptRun.2.1.filter
        (fun e => decide (e = Event.decodeFailed "b.jpg"))).length = 1
    ∧ Event.hashed "b.jpg" ∈ corruptRun.2.1 := by
  refine ⟨by decide, by decide, by decide, by decide, by decide, by decide⟩

/-- C6: resolving a tree yields the `NotFound` variant exactly when the
marker file is absent at that (file-naming, hence non-root) path, the
`Other` variant when the marker exists but is unreadable or unparseable,
and on `NotFound` `process_tree` returns success with the catalog
untouched. -/
theorem tree_resolution_notfound_iff_absent (env : Env) (p : List String)
    (dppm : List (String × List DatePath)) (db : Db) (hp : p ≠ []) :
    ((∃ q, tree_try_from env.markerFs p = Except.error (TreeError.notFound q))
      ↔ env.markerFs p = MarkerFile.absent)
    ∧ ((env.markerFs p = MarkerFile.unreadable
        ∨ env.markerFs p = MarkerFile.unparseable) →
        ∃ e, tree_try_from env.markerFs p
          = Except.error (TreeError.otherErr p e))
    ∧ (env.markerFs p = MarkerFile.absent →
        (process_tree env p dppm db).2.2 = Except.ok ()
        ∧ (process_tree env p dppm db).1 = db) := by
  cases hm : env.markerFs p <;>
    simp [tree_try_from, marker_read, hp, hm, process_tree]

/-- Witness for C6 on the concrete all-absent marker filesystem. -/
theorem tree_resolution_notfound_iff_absent_witness :
    ((∃ q, tree_try_from envAbsent.markerFs ["t", "marker.json"]
        = Except.error (TreeError.notFound q))
      ↔ envAbsent.markerFs ["t", "marker.json"] = MarkerFile.absent)
    ∧ ((envAbsent.markerFs ["t", "marker.json"] = MarkerFile.unreadable
        ∨ envAbsent.markerFs ["t", "marker.json"] = MarkerFile.unparseable) →
        ∃ e, tree_try_from envAbsent.markerFs ["t", "marker.json"]
          = Except.error (TreeError.otherErr ["t", "marker.json"] e))
    ∧ (envAbsent.markerFs ["t", "marker.json"] = MarkerFile.absent →
        (process_tree envAbsent ["t", "marker.json"] []
          { records := [], broken := false }).2.2 = Except.ok ()
        ∧ (process_tree envAbsent ["t", "marker.json"] []
            { records := [], broken := false }).1
          = { records := [], broken := false }) :=
  tree_resolution_notfound_iff_absent envAbsent ["t", "marker.json"] []
    { records := [], broken := false } (by decide)

/-- C7 (amended): when a Catalog Store operation fails, the worker for that
tree stops — the existence check's failure propagates with `?` and the
remaining files of that tree are never reached — and the failure is
collected and reported at `scan` level, but `scan` itself still returns
success (`Ok(())`, scanning.rs:42), not an error. -/
theorem store_failure_stops_worker_scan_still_ok (env : Env)
    (marker : String) (root : List String) (dps : List DatePath)
    (p : List String) (rest : List (Except WalkError (List String)))
    (db : Db) (buf : List Nat) (rel : String)
    (markers : List (List String))
    (dppm : List (String × List DatePath))
    (hbr : db.broken = true)
    (hread : env.fsRead p = Except.ok buf)
    (hrel : relative_slash_path root p = Except.ok rel) :
    processItems env marker root dps (Except.ok p :: rest) db
      = (db, [Event.readBytes p], Except.error RunError.store)
    ∧ (scan env markers dppm db).2.2 = Except.ok () := by
  constructor
  · simp [processItems, hread, hrel, db_exists, hbr]
  · rfl

/-- Witness for C7 (amended) at the broken store `dbBroken`. -/
theorem store_failure_stops_worker_scan_still_ok_witness :
    processItems envStore "m" ["r"] [] [Except.ok ["r", "a.jpg"]] dbBroken
      = (dbBroken, [Event.readBytes ["r", "a.jpg"]],
         Except.error RunError.store)
    ∧ (scan envStore [["r", "marker.json"]] [] dbBroken).2.2
      = Except.ok () :=
  store_failure_stops_worker_scan_still_ok envStore "m" ["r"] []
    ["r", "a.jpg"] [] dbBroken [1] "a.jpg" [["r", "marker.json"]] []
    (by decide) (by decide) (by decide)

/-- Counterexample for C7 as stated: with the store broken, the tree's
worker does fail (`process_tree` returns a store error, which `scan`
collects and reports), yet `scan` returns success — not "an error rather
than success". -/
theorem store_failure_scan_returns_success :
    (process_tree envStore ["r", "marker.json"] [] dbBroken).2.2
      = Except.error RunError.store
    ∧ (scan envStore [["r", "marker.json"]] [] dbBroken).2.1
      = [RunError.store]
    ∧ (scan envStore [["r", "marker.json"]] [] dbBroken).2.2
      = Except.ok () := by
  refine ⟨by decide, by decide, by decide⟩

end Backerrs
